import Mathlib

/-!
A verification development for the onlyfacts repository: a single-fact
voting service (Express + Mongoose).  The repository contains several
variants of the same server:

* `src/server/index.js` — the variant with request-body validation, a
  null check on the looked-up fact, and a vote-change branch in the
  PATCH `/api/fact/:id/vote` handler;
* `src/unnamed/part_002` (and the identical handler in `part_003`) — an
  earlier variant whose PATCH handler has no body validation and no null
  check, and which rejects every repeat vote (carrying `previousVote`).

The embedding below models the Fact documents, the MongoDB-backed store
as a list of documents keyed by `id`, and each route handler as a pure
function from (store, request) to (status, JSON body, new store).

Modelling conventions, used uniformly:
* Mongo ObjectIds and user identifiers are abstract `String`s; `findById`
  is `List.find?` on the `id` field, and `save` replaces the document
  with the same `id` (documents are keyed uniquely by `id` in MongoDB).
* JS request-body fields are `String`s; an absent field is modelled as
  the empty string `""`, which the handlers' falsiness checks
  (`!type || !userId`) treat exactly like `undefined`, and which also
  fails the `['agree','disagree'].includes` test just as `undefined` does.
* Dates are epoch integers; counters are unbounded integers (they are
  only ever incremented/decremented by 1, far from any double-precision
  precision limit).
* `res.json(document)` serializes the full mongoose document; the
  serialization is modelled by `factToJson` below (the mongoose version
  key `__v` is elided, it plays no role in any property considered here).
-/

namespace OnlyFacts

/-- A JSON value, the shape of response bodies produced by `res.json`. -/
inductive JVal where
  | null : JVal
  | str : String → JVal
  | num : Int → JVal
  | bool : Bool → JVal
  | arr : List JVal → JVal
  | obj : List (String × JVal) → JVal

/-- Keys of a JSON object (empty for non-objects). -/
def jsonKeys : JVal → List String
  | .obj fs => fs.map Prod.fst
  | _ => []

/-- Field lookup in a JSON object. -/
def jsonField (j : JVal) (k : String) : Option JVal :=
  match j with
  | .obj fs => (fs.find? (fun p => p.1 == k)).map Prod.snd
  | _ => none

/-- One entry of the `voters` array of the mongoose schema:
`{ userId: String, vote: String }`. -/
structure VoterEntry where
  userId : String
  vote : String
deriving DecidableEq

/-- A Fact document, after the mongoose schema in every server variant:
`content` (String), `publishedAt` (Date, modelled as epoch Int),
`agrees`/`disagrees` (Number, default 0), `voters` (array of
`VoterEntry`).  `id` is the Mongo `_id`. -/
structure Fact where
  id : String
  content : String
  publishedAt : Int
  agrees : Int
  disagrees : Int
  voters : List VoterEntry
deriving DecidableEq

/-- Mongoose serialization of one voter entry. -/
def voterToJson (v : VoterEntry) : JVal :=
  .obj [("userId", .str v.userId), ("vote", .str v.vote)]

/-- Mongoose serialization of a full Fact document, as sent by
`res.json(fact)`: all schema paths are included, `voters` among them. -/
def factToJson (f : Fact) : JVal :=
  .obj [("_id", .str f.id), ("content", .str f.content),
        ("publishedAt", .num f.publishedAt), ("agrees", .num f.agrees),
        ("disagrees", .num f.disagrees),
        ("voters", .arr (f.voters.map voterToJson))]

/-- The keys of a serialized Fact document. -/
def factJsonKeys : List String :=
  ["_id", "content", "publishedAt", "agrees", "disagrees", "voters"]

/-- The document a fresh `new Fact({content, publishedAt})` denotes:
schema defaults give zero counters and an empty voters array. -/
def freshFact (nid content : String) (now : Int) : Fact :=
  { id := nid, content := content, publishedAt := now,
    agrees := 0, disagrees := 0, voters := [] }

/-- The spec's counter/ledger invariant:
`agrees + disagrees == number of entries in voters`. -/
def factInv (f : Fact) : Prop :=
  f.agrees + f.disagrees = (f.voters.length : Int)

instance (f : Fact) : Decidable (factInv f) := by
  unfold factInv; infer_instance

/-- Mongoose `save()` on a document loaded from the store: the stored
document with the same `_id` is replaced by the new state. -/
def saveFact (store : List Fact) (f : Fact) : List Fact :=
  store.map fun g => if g.id = f.id then f else g

/-- `fact[type === 'agree' ? 'agrees' : 'disagrees']++`. -/
def incCounter (t : String) (f : Fact) : Fact :=
  if t = "agree" then { f with agrees := f.agrees + 1 }
  else { f with disagrees := f.disagrees + 1 }

/-- `fact[existingVote.vote === 'agree' ? 'agrees' : 'disagrees']--`. -/
def decCounter (t : String) (f : Fact) : Fact :=
  if t = "agree" then { f with agrees := f.agrees - 1 }
  else { f with disagrees := f.disagrees - 1 }

/-- `if (type === 'agree') fact.agrees += 1; else if (type ===
'disagree') fact.disagrees += 1;` — any other type moves neither
counter. -/
def incCounterP2 (t : String) (f : Fact) : Fact :=
  if t = "agree" then { f with agrees := f.agrees + 1 }
  else if t = "disagree" then { f with disagrees := f.disagrees + 1 }
  else f

/-- `existingVote.vote = type`: JS `Array.prototype.find` returns the
first matching element and the assignment mutates only that entry. -/
def setVoteFirst (uid t : String) : List VoterEntry → List VoterEntry
  | [] => []
  | v :: vs =>
      if v.userId = uid then { v with vote := t } :: vs
      else v :: setVoteFirst uid t vs

/-- Outcome of one PATCH `/api/fact/:id/vote` request: HTTP status,
JSON body, the store after the request, and whether the handler reached
the database (`Fact.findById`). -/
structure PatchResult where
  status : Nat
  body : JVal
  store : List Fact
  dbRead : Bool

/-- The PATCH `/api/fact/:id/vote` handler of `src/server/index.js`
(both copies in that file are identical): validate `type`/`userId`
falsiness, validate `type ∈ {agree, disagree}`, `findById`, 404 on null,
reject a repeat vote with the same type (`Already voted`), otherwise on
a different type decrement the old counter, overwrite the stored choice
and increment the new counter; on a first vote push the voter entry and
increment; then persist.  The mutating paths end in
`await fact.save().maxTimeMS(5000)`: mongoose `Document.save` returns a
Promise, not a Query, so the `.maxTimeMS` access throws a TypeError
after the save has already been initiated — the document is persisted,
the `res.json(fact)` line is never reached, and the `catch` (whose
MongooseError/MongoError test does not match a TypeError) answers
500 `{message: 'Internal server error'}`.  So both mutating branches
update the store but answer a 500 message-only body, never the
serialized Fact. -/
def patchVoteIndex (store : List Fact) (factId vtype userId : String) :
    PatchResult :=
  if vtype = "" ∨ userId = "" then
    { status := 400, body := .obj [("message", .str "Type and userId are required")],
      store := store, dbRead := false }
  else if ¬ (vtype = "agree" ∨ vtype = "disagree") then
    { status := 400, body := .obj [("message", .str "Invalid vote type")],
      store := store, dbRead := false }
  else
    match store.find? (fun f => f.id == factId) with
    | none =>
        { status := 404, body := .obj [("message", .str "Fact not found")],
          store := store, dbRead := true }
    | some fact =>
        match fact.voters.find? (fun v => v.userId == userId) with
        | some ev =>
            if ev.vote = vtype then
              { status := 400, body := .obj [("message", .str "Already voted")],
                store := store, dbRead := true }
            else
              { status := 500,
                body := .obj [("message", .str "Internal server error")],
                store := saveFact store (incCounter vtype
                  { decCounter ev.vote fact with
                      voters := setVoteFirst userId vtype fact.voters }),
                dbRead := true }
        | none =>
            { status := 500,
              body := .obj [("message", .str "Internal server error")],
              store := saveFact store (incCounter vtype
                { fact with voters := fact.voters ++ [⟨userId, vtype⟩] }),
              dbRead := true }

/-- The PATCH `/api/fact/:id/vote` handler of `src/unnamed/part_002`
(identical in `part_003`): no body validation and no null check — when
`findById` yields null, `fact.voters` throws a TypeError which the
`catch` turns into a 400 with the error message; a voter already present
is rejected with `previousVote`; otherwise `agrees` is incremented when
`type === 'agree'`, `disagrees` when `type === 'disagree'`, and for any
other type neither counter moves — yet the voter entry is pushed in all
three cases before `save`. -/
def patchVoteP2 (store : List Fact) (factId vtype userId : String) :
    PatchResult :=
  match store.find? (fun f => f.id == factId) with
  | none =>
      { status := 400,
        body := .obj [("message",
          .str "Cannot read properties of null (reading voters)")],
        store := store, dbRead := true }
  | some fact =>
      match fact.voters.find? (fun v => v.userId == userId) with
      | some ev =>
          { status := 400,
            body := .obj [("message", .str "You have already voted on this fact"),
                          ("hasVoted", .bool true),
                          ("previousVote", .str ev.vote)],
            store := store, dbRead := true }
      | none =>
          { status := 200,
            body := factToJson
              { incCounterP2 vtype fact with
                  voters := fact.voters ++ [⟨userId, vtype⟩] },
            store := saveFact store
              { incCounterP2 vtype fact with
                  voters := fact.voters ++ [⟨userId, vtype⟩] },
            dbRead := true }

/-- Outcome of a request that only reads the store. -/
structure GetResult where
  status : Nat
  body : JVal

/-- The later of two documents by `publishedAt` (the first on ties). -/
def laterFact (best g : Fact) : Fact :=
  if best.publishedAt < g.publishedAt then g else best

/-- `Fact.findOne().sort({ publishedAt: -1 })`: some stored document with
the maximal `publishedAt`, or none when the collection is empty.
MongoDB leaves the order of equal sort keys unspecified; the model picks
the first stored document among ties. -/
def getCurrent (store : List Fact) : Option Fact :=
  match store with
  | [] => none
  | f :: fs => some (fs.foldl laterFact f)

/-- The GET `/api/facts` handler of `src/server/index.js`: on an empty
collection it answers 200 with `{message: 'No facts found'}`, otherwise
200 with the serialized document. -/
def getFactsIndex (store : List Fact) : GetResult :=
  match getCurrent store with
  | none => { status := 200, body := .obj [("message", .str "No facts found")] }
  | some f => { status := 200, body := factToJson f }

/-- The GET `/api/fact/current` handler of `src/unnamed/part_003`:
`res.json(fact)` with a null query result serializes JSON `null`,
status 200. -/
def getFactCurrentP3 (store : List Fact) : GetResult :=
  match getCurrent store with
  | none => { status := 200, body := .null }
  | some f => { status := 200, body := factToJson f }

/-- Outcome of a POST `/api/fact` request. -/
structure CreateResult where
  status : Nat
  body : JVal
  store : List Fact

/-- The POST `/api/fact` handler of `src/server/index.js`:
`if (!req.body.content) return 400`, otherwise a fresh document
(schema defaults: zero counters, empty voters, `publishedAt = new
Date()`) is persisted.  A missing `content` field is modelled as `""`
(both are falsy).  The success path is
`await fact.save().maxTimeMS(5000)`: `Document.save` returns a Promise
without `.maxTimeMS`, so a TypeError is thrown after the save has been
initiated — the document persists, the 201 response is never sent, and
the `catch` answers 400 with the TypeError's message. -/
def createFactIndex (store : List Fact) (content nid : String) (now : Int) :
    CreateResult :=
  if content = "" then
    { status := 400, body := .obj [("message", .str "Content is required")],
      store := store }
  else
    { status := 400,
      body := .obj [("message",
        .str "fact.save(...).maxTimeMS is not a function")],
      store := store ++ [freshFact nid content now] }

/-- The POST `/api/fact` handler of `src/unnamed/part_002`: no explicit
check, but the schema marks `content` as `required: true`, and mongoose
rejects a missing or empty string on `save()` with a ValidationError,
which the `catch` answers with 400 — so nothing is persisted either. -/
def createFactP2 (store : List Fact) (content nid : String) (now : Int) :
    CreateResult :=
  if content = "" then
    { status := 400,
      body := .obj [("message", .str "Fact validation failed: content is required")],
      store := store }
  else
    { status := 201, body := factToJson (freshFact nid content now),
      store := store ++ [freshFact nid content now] }

/-- Outcome of `connectWithRetry`: how many connection attempts were
made, the final value of the `isReady` flag, and the successive waits
(in milliseconds) performed between attempts. -/
structure RetryResult where
  attempts : Nat
  isReady : Bool
  delays : List Nat
deriving DecidableEq

/-- `Math.min(1000 * Math.pow(2, retries), 10000)`. -/
def retryDelay (k : Nat) : Nat := min (1000 * 2 ^ k) 10000

/-- One unrolling of the `while (retries < maxRetries)` loop of
`connectWithRetry`, with `retries` the current counter and `fuel` an
upper bound on the remaining iterations (the loop body always returns
by the time `retries` reaches `maxRetries`, so any `fuel ≥ maxRetries -
retries` yields the loop's exact behaviour; the fuel-exhausted default
coincides with the loop-exit result).  `connect k` tells whether the
`(k+1)`-th call of `mongoose.connect` succeeds. -/
def connectAux (connect : Nat → Bool) (maxRetries : Nat) :
    Nat → Nat → RetryResult
  | _, 0 => { attempts := 0, isReady := false, delays := [] }
  | retries, fuel + 1 =>
      if retries < maxRetries then
        if connect retries then
          { attempts := 1, isReady := true, delays := [] }
        else if retries + 1 = maxRetries then
          { attempts := 1, isReady := false, delays := [] }
        else
          { attempts := (connectAux connect maxRetries (retries + 1) fuel).attempts + 1,
            isReady := (connectAux connect maxRetries (retries + 1) fuel).isReady,
            delays := retryDelay (retries + 1) ::
              (connectAux connect maxRetries (retries + 1) fuel).delays }
      else { attempts := 0, isReady := false, delays := [] }

/-- `connectWithRetry` as in both variants of `src/server/index.js`
(`maxRetries` is 5 in the first variant, 10 in the second): starts with
`retries = 0`, returns on the first successful attempt setting
`isReady`, increments `retries` on failure, gives up when `retries`
reaches `maxRetries`, and otherwise waits
`Math.min(1000 * 2 ** retries, 10000)` ms before the next attempt. -/
def connectWithRetry (connect : Nat → Bool) (maxRetries : Nat) : RetryResult :=
  connectAux connect maxRetries 0 maxRetries

/-- One vote request as routed to a PATCH handler. -/
structure VReq where
  factId : String
  vtype : String
  userId : String
deriving DecidableEq

/-- Store evolution under a sequence of requests to the
`src/server/index.js` PATCH handler. -/
def runVotesIndex (store : List Fact) (reqs : List VReq) : List Fact :=
  reqs.foldl (fun s r => (patchVoteIndex s r.factId r.vtype r.userId).store) store

/-- Store evolution under a sequence of requests to the
`src/unnamed/part_002` PATCH handler. -/
def runVotesP2 (store : List Fact) (reqs : List VReq) : List Fact :=
  reqs.foldl (fun s r => (patchVoteP2 s r.factId r.vtype r.userId).store) store

/-! Helper lemmas about the embedded operations. -/

theorem incCounter_voters (t : String) (f : Fact) :
    (incCounter t f).voters = f.voters := by
  unfold incCounter; split <;> rfl

theorem incCounter_id (t : String) (f : Fact) :
    (incCounter t f).id = f.id := by
  unfold incCounter; split <;> rfl

theorem incCounter_sum (t : String) (f : Fact) :
    (incCounter t f).agrees + (incCounter t f).disagrees =
      f.agrees + f.disagrees + 1 := by
  unfold incCounter; split <;> simp <;> ring

theorem decCounter_sum (t : String) (f : Fact) :
    (decCounter t f).agrees + (decCounter t f).disagrees =
      f.agrees + f.disagrees - 1 := by
  unfold decCounter; split <;> simp <;> ring

theorem setVoteFirst_length (uid t : String) :
    ∀ vs : List VoterEntry, (setVoteFirst uid t vs).length = vs.length := by
  intro vs
  induction vs with
  | nil => rfl
  | cons v vs ih => unfold setVoteFirst; split <;> simp [ih]

theorem setVoteFirst_of_absent (uid t : String) :
    ∀ vs : List VoterEntry,
      vs.find? (fun v => v.userId == uid) = none → setVoteFirst uid t vs = vs := by
  intro vs
  induction vs with
  | nil => intro _; rfl
  | cons v vs ih =>
      intro h
      unfold setVoteFirst
      by_cases hv : v.userId = uid
      · exfalso
        rw [List.find?_cons_of_pos _ (by simpa using hv)] at h
        exact Option.noConfusion h
      · rw [List.find?_cons_of_neg _ (by simpa using hv)] at h
        simp only [hv, if_false]
        rw [ih h]

theorem find?_append_of_none {α : Type} (p : α → Bool) (l2 : List α) :
    ∀ l1 : List α, l1.find? p = none → (l1 ++ l2).find? p = l2.find? p := by
  intro l1
  induction l1 with
  | nil => intro _; rfl
  | cons a l ih =>
      intro h
      by_cases ha : p a = true
      · rw [List.find?_cons_of_pos _ ha] at h
        exact Option.noConfusion h
      · rw [List.find?_cons_of_neg _ ha] at h
        rw [List.cons_append, List.find?_cons_of_neg _ ha]
        exact ih h

theorem mem_saveFact {store : List Fact} {f g : Fact}
    (h : f ∈ saveFact store g) : f = g ∨ f ∈ store := by
  unfold saveFact at h
  rcases List.mem_map.1 h with ⟨x, hx, hfx⟩
  by_cases hid : x.id = g.id
  · left; rw [← hfx]; simp [hid]
  · right; rw [← hfx]; simp only [hid, if_false]; exact hx

theorem find?_saveFact (f fact : Fact) (fid : String) :
    ∀ store : List Fact,
      store.find? (fun x => x.id == fid) = some fact → f.id = fact.id →
      (saveFact store f).find? (fun x => x.id == fid) = some f := by
  intro store
  induction store with
  | nil => intro h _; simp [List.find?] at h
  | cons g gs ih =>
      intro hfind hid
      have hfid : fact.id = fid := by simpa using List.find?_some hfind
      by_cases hg : g.id = fid
      · have hfg : fact = g := by
          rw [List.find?_cons_of_pos _ (by simpa using hg)] at hfind
          exact (Option.some_inj.mp hfind).symm
        unfold saveFact
        simp only [List.map_cons]
        rw [if_pos (by rw [hfg] at hid; exact hid.symm)]
        exact List.find?_cons_of_pos _ (by simp [hid, hfid])
      · have hfind' : gs.find? (fun x => x.id == fid) = some fact := by
          rwa [List.find?_cons_of_neg _ (by simpa using hg)] at hfind
        have ihr := ih hfind' hid
        unfold saveFact at ihr ⊢
        simp only [List.map_cons]
        by_cases hgf : g.id = f.id
        · rw [if_pos hgf]
          exact List.find?_cons_of_pos _ (by simp [hid, hfid])
        · rw [if_neg hgf]
          rw [List.find?_cons_of_neg _ (by simpa using hg)]
          exact ihr

theorem patchVoteIndex_inv (store : List Fact) (fid t uid : String)
    (h : ∀ f ∈ store, factInv f) :
    ∀ f ∈ (patchVoteIndex store fid t uid).store, factInv f := by
  intro f hf
  unfold patchVoteIndex at hf
  split at hf
  · exact h f hf
  · split at hf
    · exact h f hf
    · split at hf
      · exact h f hf
      · next fact hfind =>
          have hfact : factInv fact :=
            h fact (List.mem_of_find?_eq_some hfind)
          split at hf
          · next ev hev =>
              split at hf
              · exact h f hf
              · simp only at hf
                rcases mem_saveFact hf with rfl | hf'
                · unfold factInv
                  rw [incCounter_voters]
                  have h1 := incCounter_sum t
                    { decCounter ev.vote fact with
                        voters := setVoteFirst uid t fact.voters }
                  have h2 := decCounter_sum ev.vote fact
                  unfold factInv at hfact
                  simp only [setVoteFirst_length]
                  simp only [h1]
                  have h3 : ({ decCounter ev.vote fact with
                      voters := setVoteFirst uid t fact.voters } : Fact).agrees =
                        (decCounter ev.vote fact).agrees := rfl
                  have h4 : ({ decCounter ev.vote fact with
                      voters := setVoteFirst uid t fact.voters } : Fact).disagrees =
                        (decCounter ev.vote fact).disagrees := rfl
                  rw [h3, h4]
                  omega
                · exact h f hf'
          · simp only at hf
            rcases mem_saveFact hf with rfl | hf'
            · unfold factInv
              rw [incCounter_voters]
              have h1 := incCounter_sum t
                { fact with voters := fact.voters ++ [⟨uid, t⟩] }
              unfold factInv at hfact
              simp only [h1]
              simp only [List.length_append, List.length_cons, List.length_nil]
              have h3 : ({ fact with voters := fact.voters ++ [⟨uid, t⟩] } : Fact).agrees =
                  fact.agrees := rfl
              have h4 : ({ fact with voters := fact.voters ++ [⟨uid, t⟩] } : Fact).disagrees =
                  fact.disagrees := rfl
              rw [h3, h4]
              omega
            · exact h f hf'

theorem patchVoteP2_inv (store : List Fact) (fid t uid : String)
    (ht : t = "agree" ∨ t = "disagree")
    (h : ∀ f ∈ store, factInv f) :
    ∀ f ∈ (patchVoteP2 store fid t uid).store, factInv f := by
  intro f hf
  unfold patchVoteP2 at hf
  split at hf
  · exact h f hf
  · next fact hfind =>
      have hfact : factInv fact :=
        h fact (List.mem_of_find?_eq_some hfind)
      split at hf
      · exact h f hf
      · simp only at hf
        rcases mem_saveFact hf with rfl | hf'
        · unfold factInv at hfact ⊢
          rcases ht with rfl | rfl <;>
            simp [incCounterP2, List.length_append] <;> omega
        · exact h f hf'

theorem runVotesIndex_inv (reqs : List VReq) :
    ∀ store : List Fact, (∀ f ∈ store, factInv f) →
      ∀ f ∈ runVotesIndex store reqs, factInv f := by
  induction reqs with
  | nil => intro store h; simpa [runVotesIndex] using h
  | cons r rs ih =>
      intro store h
      have hstep := patchVoteIndex_inv store r.factId r.vtype r.userId h
      have hrw : runVotesIndex store (r :: rs) =
          runVotesIndex (patchVoteIndex store r.factId r.vtype r.userId).store rs := rfl
      rw [hrw]
      exact ih _ hstep

theorem runVotesP2_inv (reqs : List VReq) :
    ∀ store : List Fact, (∀ f ∈ store, factInv f) →
      (∀ r ∈ reqs, r.vtype = "agree" ∨ r.vtype = "disagree") →
      ∀ f ∈ runVotesP2 store reqs, factInv f := by
  induction reqs with
  | nil => intro store h _; simpa [runVotesP2] using h
  | cons r rs ih =>
      intro store h hv
      have hstep := patchVoteP2_inv store r.factId r.vtype r.userId
        (hv r (by simp)) h
      have hrw : runVotesP2 store (r :: rs) =
          runVotesP2 (patchVoteP2 store r.factId r.vtype r.userId).store rs := rfl
      rw [hrw]
      exact ih _ hstep (fun q hq => hv q (by simp [hq]))

theorem foldl_laterFact_mem (fs : List Fact) :
    ∀ f : Fact, fs.foldl laterFact f ∈ f :: fs := by
  induction fs with
  | nil => intro f; simp
  | cons a fs ih =>
      intro f
      rw [List.foldl_cons]
      have h := ih (laterFact f a)
      rcases List.mem_cons.1 h with he | hm
      · rw [he]
        unfold laterFact
        split
        · simp
        · simp
      · simp [List.mem_cons.2 (Or.inr hm)]

theorem foldl_laterFact_ge (fs : List Fact) :
    ∀ f g : Fact, g ∈ f :: fs →
      g.publishedAt ≤ (fs.foldl laterFact f).publishedAt := by
  induction fs with
  | nil =>
      intro f g hg
      simp at hg
      simp [hg]
  | cons a fs ih =>
      intro f g hg
      rw [List.foldl_cons]
      have hfa : f.publishedAt ≤ (laterFact f a).publishedAt := by
        unfold laterFact; split <;> omega
      have haa : a.publishedAt ≤ (laterFact f a).publishedAt := by
        unfold laterFact; split <;> omega
      have hmain : (laterFact f a).publishedAt ≤
          (fs.foldl laterFact (laterFact f a)).publishedAt :=
        ih (laterFact f a) (laterFact f a) (List.mem_cons_self _ _)
      rcases List.mem_cons.1 hg with h1 | hg'
      · rw [h1]; exact le_trans hfa hmain
      rcases List.mem_cons.1 hg' with h2 | hg''
      · rw [h2]; exact le_trans haa hmain
      · exact ih (laterFact f a) g (List.mem_cons_of_mem _ hg'')

theorem getCurrent_mem {store : List Fact} {f : Fact}
    (h : getCurrent store = some f) : f ∈ store := by
  unfold getCurrent at h
  match store, h with
  | g :: gs, h =>
      have := foldl_laterFact_mem gs g
      rw [Option.some_inj.mp h] at this
      exact this

theorem getCurrent_ge {store : List Fact} {f : Fact}
    (h : getCurrent store = some f) :
    ∀ g ∈ store, g.publishedAt ≤ f.publishedAt := by
  unfold getCurrent at h
  match store, h with
  | x :: xs, h =>
      intro g hg
      have := foldl_laterFact_ge xs x g hg
      rw [Option.some_inj.mp h] at this
      exact this

theorem connectAux_attempts_le (connect : Nat → Bool) (maxRetries : Nat) :
    ∀ fuel retries : Nat,
      (connectAux connect maxRetries retries fuel).attempts ≤
        maxRetries - retries := by
  intro fuel
  induction fuel with
  | zero => intro retries; simp [connectAux]
  | succ n ih =>
      intro retries
      unfold connectAux
      split
      · next hlt =>
          split
          · simp; omega
          · split
            · simp; omega
            · next hne =>
                have := ih (retries + 1)
                simp only
                omega
      · simp

theorem connectAux_attempts_pos (connect : Nat → Bool) (maxRetries : Nat) :
    ∀ fuel retries : Nat, retries < maxRetries → maxRetries - retries ≤ fuel →
      1 ≤ (connectAux connect maxRetries retries fuel).attempts := by
  intro fuel retries hlt hfuel
  cases fuel with
  | zero => omega
  | succ n =>
      unfold connectAux
      rw [if_pos hlt]
      split
      · simp
      · split
        · simp
        · simp

theorem connectAux_delays (connect : Nat → Bool) (maxRetries : Nat) :
    ∀ fuel retries : Nat, maxRetries - retries ≤ fuel →
      (connectAux connect maxRetries retries fuel).delays =
        (List.range ((connectAux connect maxRetries retries fuel).attempts - 1)).map
          (fun j => retryDelay (retries + 1 + j)) := by
  intro fuel
  induction fuel with
  | zero => intro retries _; simp [connectAux]
  | succ n ih =>
      intro retries hfuel
      unfold connectAux
      split
      · next hlt =>
          split
          · simp
          · split
            · simp
            · next hne =>
                have hlt' : retries + 1 < maxRetries := by omega
                have hfuel' : maxRetries - (retries + 1) ≤ n := by omega
                have hpos := connectAux_attempts_pos connect maxRetries n
                  (retries + 1) hlt' hfuel'
                have ihr := ih (retries + 1) hfuel'
                simp only
                obtain ⟨m, hm⟩ : ∃ m,
                    (connectAux connect maxRetries (retries + 1) n).attempts =
                      m + 1 := ⟨_, (Nat.succ_pred_eq_of_pos hpos).symm⟩
                rw [ihr, hm]
                simp only [Nat.add_sub_cancel, List.range_succ_eq_map,
                  List.map_cons, List.map_map]
                refine congrArg₂ List.cons (by simp [Nat.add_comm]) ?_
                refine List.map_congr_left ?_
                intro j hj
                simp only [Function.comp]
                exact congrArg retryDelay (by omega)
      · simp

theorem connectAux_first_success (connect : Nat → Bool) (maxRetries s : Nat)
    (hs : s < maxRetries) (hsucc : connect s = true) :
    ∀ fuel retries : Nat, retries ≤ s → maxRetries - retries ≤ fuel →
      (∀ j, retries ≤ j → j < s → connect j = false) →
      (connectAux connect maxRetries retries fuel).attempts = s - retries + 1 ∧
      (connectAux connect maxRetries retries fuel).isReady = true := by
  intro fuel
  induction fuel with
  | zero => intro retries h1 h2 _; omega
  | succ n ih =>
      intro retries hrs hfuel hprev
      unfold connectAux
      rw [if_pos (by omega : retries < maxRetries)]
      by_cases he : retries = s
      · subst he
        rw [if_pos hsucc]
        simp
      · have hlt : retries < s := lt_of_le_of_ne hrs he
        have hfail : connect retries = false := hprev retries le_rfl hlt
        rw [if_neg (by simp [hfail])]
        rw [if_neg (by omega : ¬ retries + 1 = maxRetries)]
        have ihr := ih (retries + 1) (by omega) (by omega)
          (fun j hj1 hj2 => hprev j (by omega) hj2)
        simp only
        constructor
        · rw [ihr.1]; omega
        · exact ihr.2

/-! Claim theorems. -/

/-- C10: in the `src/server/index.js` variant, request-body validation
precedes the fact lookup: a PATCH vote request with a missing (falsy)
`type` or `userId`, or a `type` outside `{agree, disagree}`, is rejected
with 400 before the store is read — the handler performs no database
read, leaves the store unchanged, produces the same response for any
two stores (in particular for a store in which the fact id does not
exist, the answer is 400, not 404). -/
theorem voteValidation_beforeLookup (store store2 : List Fact)
    (fid t uid : String)
    (h : t = "" ∨ uid = "" ∨ (¬ t = "agree" ∧ ¬ t = "disagree")) :
    (patchVoteIndex store fid t uid).status = 400 ∧
    (patchVoteIndex store fid t uid).dbRead = false ∧
    (patchVoteIndex store fid t uid).store = store ∧
    (patchVoteIndex store fid t uid).body =
      (patchVoteIndex store2 fid t uid).body ∧
    ¬ (patchVoteIndex store fid t uid).status = 404 := by
  by_cases hc : t = "" ∨ uid = ""
  · unfold patchVoteIndex
    rw [if_pos hc, if_pos hc]
    exact ⟨rfl, rfl, rfl, rfl, by simp⟩
  · have hinv : ¬ (t = "agree" ∨ t = "disagree") := by
      rcases h with h | h | h
      · exact absurd (Or.inl h) hc
      · exact absurd (Or.inr h) hc
      · rintro (he | he)
        · exact h.1 he
        · exact h.2 he
    unfold patchVoteIndex
    rw [if_neg hc, if_neg hc, if_pos hinv, if_pos hinv]
    exact ⟨rfl, rfl, rfl, rfl, by simp⟩

/-- C10 witness: a request with an invalid vote type against a store
that does not contain the requested id is rejected with 400, without a
database read. -/
theorem voteValidation_beforeLookup_witness :
    (("maybe" : String) = "" ∨ ("u1" : String) = "" ∨
      (¬ ("maybe" : String) = "agree" ∧ ¬ ("maybe" : String) = "disagree")) ∧
    (patchVoteIndex [] "missing" "maybe" "u1").status = 400 ∧
    (patchVoteIndex [] "missing" "maybe" "u1").dbRead = false :=
  ⟨by decide,
   (voteValidation_beforeLookup [] [freshFact "f1" "x" 0] "missing" "maybe" "u1"
     (by decide)).1,
   (voteValidation_beforeLookup [] [freshFact "f1" "x" 0] "missing" "maybe" "u1"
     (by decide)).2.1⟩

/-- C6 counterexample: in the `src/unnamed/part_002` variant a vote for
an id that matches no stored Fact is answered with 400 (the handler has
no null check; the TypeError thrown by `fact.voters` is caught and
turned into a 400), not with 404 as the claim states. -/
theorem voteUnknownId_counterexample :
    (patchVoteP2 [] "missing" "agree" "u1").status = 400 ∧
    ¬ (patchVoteP2 [] "missing" "agree" "u1").status = 404 := by
  exact ⟨by decide, by decide⟩

/-- C6 (amended): a vote whose fact id matches no stored Fact changes no
stored state in either variant; the `src/server/index.js` variant fails
with NotFound surfaced as 404, while the `src/unnamed/part_002` variant
(missing the null check) surfaces the failure as a 400 from the caught
TypeError. -/
theorem voteUnknownId (store : List Fact) (fid t uid : String)
    (hnone : store.find? (fun x => x.id == fid) = none)
    (ht : t = "agree" ∨ t = "disagree") (huid : uid ≠ "") :
    (patchVoteIndex store fid t uid).status = 404 ∧
    (patchVoteIndex store fid t uid).store = store ∧
    (patchVoteP2 store fid t uid).status = 400 ∧
    (patchVoteP2 store fid t uid).store = store := by
  have htne : ¬ t = "" := by rcases ht with rfl | rfl <;> simp
  have hcond1 : ¬ (t = "" ∨ uid = "") := by
    rintro (hh | hh)
    · exact htne hh
    · exact huid hh
  have hvalid : ¬ ¬ (t = "agree" ∨ t = "disagree") := not_not_intro ht
  have heq1 : patchVoteIndex store fid t uid =
      { status := 404, body := .obj [("message", .str "Fact not found")],
        store := store, dbRead := true } := by
    unfold patchVoteIndex
    rw [if_neg hcond1, if_neg hvalid, hnone]
  have heq2 : patchVoteP2 store fid t uid =
      { status := 400,
        body := .obj [("message",
          .str "Cannot read properties of null (reading voters)")],
        store := store, dbRead := true } := by
    unfold patchVoteP2
    rw [hnone]
  rw [heq1, heq2]
  exact ⟨rfl, rfl, rfl, rfl⟩

/-- C6 witness: a concrete unknown-id vote against a one-fact store. -/
theorem voteUnknownId_witness :
    ([freshFact "f1" "x" 0].find? (fun x => x.id == "missing") = none) ∧
    (patchVoteIndex [freshFact "f1" "x" 0] "missing" "agree" "u1").status = 404 ∧
    (patchVoteP2 [freshFact "f1" "x" 0] "missing" "agree" "u1").status = 400 :=
  ⟨by decide,
   (voteUnknownId [freshFact "f1" "x" 0] "missing" "agree" "u1" (by decide)
     (by decide) (by decide)).1,
   (voteUnknownId [freshFact "f1" "x" 0] "missing" "agree" "u1" (by decide)
     (by decide) (by decide)).2.2.1⟩

/-- C8: creating a Fact with empty (or missing, which is equally falsy)
content fails with 400 and persists nothing, in both server variants
(`src/server/index.js` checks explicitly; `src/unnamed/part_002` relies
on the schema's `required: true`, which mongoose enforces on `save`);
creating with non-empty content persists exactly one new record with
zero counters, empty voters and the server-assigned `publishedAt` — in
`part_002` with a 201 response; in `src/server/index.js` the record
also persists (the save is initiated before the `save().maxTimeMS`
TypeError), which is all the claim asserts for the success case. -/
theorem createFact_validation (store : List Fact) (content nid : String)
    (now : Int) (hc : content ≠ "") :
    (createFactIndex store "" nid now).status = 400 ∧
    (createFactIndex store "" nid now).store = store ∧
    (createFactP2 store "" nid now).status = 400 ∧
    (createFactP2 store "" nid now).store = store ∧
    (createFactIndex store content nid now).store =
      store ++ [freshFact nid content now] ∧
    (createFactP2 store content nid now).status = 201 ∧
    (createFactP2 store content nid now).store =
      store ++ [freshFact nid content now] ∧
    (freshFact nid content now).agrees = 0 ∧
    (freshFact nid content now).disagrees = 0 ∧
    (freshFact nid content now).voters = [] ∧
    (freshFact nid content now).publishedAt = now := by
  unfold createFactIndex createFactP2
  rw [if_pos rfl, if_pos rfl, if_neg hc, if_neg hc]
  exact ⟨rfl, rfl, rfl, rfl, rfl, rfl, rfl, rfl, rfl, rfl, rfl⟩

/-- C8 witness: concrete creation with content "hello". -/
theorem createFact_validation_witness :
    (("hello" : String) ≠ "") ∧
    (createFactIndex [] "" "f1" 5).status = 400 ∧
    (createFactIndex [] "hello" "f1" 5).store = [freshFact "f1" "hello" 5] :=
  ⟨by decide,
   (createFact_validation [] "hello" "f1" 5 (by decide)).1,
   by simpa using (createFact_validation [] "hello" "f1" 5 (by decide)).2.2.2.2.1⟩

/-- C7: on a non-empty store `getCurrent` returns a stored Fact whose
`publishedAt` is maximal — in particular after creating Facts at
`publishedAt = t1 < t2` (through the POST handler) it returns the Fact
created at `t2`; on an empty store it returns the explicit no-fact
result, not an error: the `src/server/index.js` GET handler answers 200
with `{message: 'No facts found'}`, the `src/unnamed/part_003` handler
answers 200 with JSON `null`. -/
theorem getCurrent_latest (store : List Fact) (c1 c2 id1 id2 : String)
    (t1 t2 : Int) (h1 : c1 ≠ "") (h2 : c2 ≠ "") (hlt : t1 < t2) :
    (getCurrent ([] : List Fact) = none ∧
      (getFactsIndex []).status = 200 ∧
      (getFactsIndex []).body = .obj [("message", .str "No facts found")] ∧
      (getFactCurrentP3 []).status = 200 ∧
      (getFactCurrentP3 []).body = .null) ∧
    (∀ f, getCurrent store = some f → f ∈ store ∧
      ∀ g ∈ store, g.publishedAt ≤ f.publishedAt) ∧
    getCurrent (createFactIndex (createFactIndex [] c1 id1 t1).store
        c2 id2 t2).store = some (freshFact id2 c2 t2) := by
  refine ⟨⟨rfl, rfl, rfl, rfl, rfl⟩, ?_, ?_⟩
  · intro f hf
    exact ⟨getCurrent_mem hf, getCurrent_ge hf⟩
  · have hstores : (createFactIndex (createFactIndex [] c1 id1 t1).store
        c2 id2 t2).store = [freshFact id1 c1 t1, freshFact id2 c2 t2] := by
      unfold createFactIndex
      rw [if_neg h1, if_neg h2]
      rfl
    rw [hstores]
    unfold getCurrent
    dsimp only
    rw [List.foldl_cons, List.foldl_nil]
    unfold laterFact
    rw [if_pos (by exact hlt)]

/-- C7 witness: two concrete creations at times 1 < 5. -/
theorem getCurrent_latest_witness :
    (("a" : String) ≠ "") ∧ (("b" : String) ≠ "") ∧ ((1 : Int) < 5) ∧
    getCurrent (createFactIndex (createFactIndex [] "a" "f1" 1).store
        "b" "f2" 5).store = some (freshFact "f2" "b" 5) :=
  ⟨by decide, by decide, by decide,
   (getCurrent_latest [] "a" "b" "f1" "f2" 1 5 (by decide) (by decide)
     (by decide)).2.2⟩

/-- C5 counterexample: the GET current-fact handler serializes the full
mongoose document, so a response for a fact with one recorded voter
contains the `voters` key — the claim that the voters mapping is never
included in a response body is false. -/
theorem factResponse_keys_counterexample :
    jsonKeys (getFactsIndex [{ freshFact "f1" "hello" 0 with
        agrees := 1, voters := [⟨"u1", "agree"⟩] }]).body = factJsonKeys ∧
    "voters" ∈ jsonKeys (getFactsIndex [{ freshFact "f1" "hello" 0 with
        agrees := 1, voters := [⟨"u1", "agree"⟩] }]).body := by
  exact ⟨rfl, by rw [(rfl : jsonKeys (getFactsIndex [{ freshFact "f1" "hello" 0 with
        agrees := 1, voters := [⟨"u1", "agree"⟩] }]).body = factJsonKeys)]; decide⟩

/-- Serialized Fact documents always expose exactly the six schema
keys. -/
theorem jsonKeys_factToJson (g : Fact) :
    jsonKeys (factToJson g) = factJsonKeys := rfl

/-- Every answer of the `src/server/index.js` PATCH handler is a
message-only body and never a 200: the mutating paths die in the
`save().maxTimeMS` TypeError before `res.json(fact)` is reached. -/
theorem patchVoteIndex_message_body (store : List Fact) (fid t uid : String) :
    ¬ (patchVoteIndex store fid t uid).status = 200 ∧
    jsonKeys (patchVoteIndex store fid t uid).body = ["message"] := by
  unfold patchVoteIndex
  split
  · exact ⟨by simp, rfl⟩
  · split
    · exact ⟨by simp, rfl⟩
    · split
      · exact ⟨by simp, rfl⟩
      · split
        · split
          · exact ⟨by simp, rfl⟩
          · exact ⟨by simp, rfl⟩
        · exact ⟨by simp, rfl⟩

/-- A 200 answer of the `src/unnamed/part_002` PATCH handler carries a
serialized Fact document as its body. -/
theorem patchVoteP2_200_body (store : List Fact) (fid t uid : String) :
    (patchVoteP2 store fid t uid).status = 200 →
      ∃ g, (patchVoteP2 store fid t uid).body = factToJson g := by
  unfold patchVoteP2
  split
  · intro h; simp at h
  · split
    · intro h; simp at h
    · intro _; exact ⟨_, rfl⟩

/-- C5 (amended): every Fact carried by a response body — from the GET
current-fact handlers of both variants, or from a successful create or
vote through the `src/unnamed/part_002` handler — is the full document
serialization with keys `{_id, content, publishedAt, agrees, disagrees,
voters}`: the voters mapping IS included whenever a Fact is returned.
The `src/server/index.js` create and vote paths never return a
serialized Fact at all: their `save().maxTimeMS` TypeError is answered
as 400 with the error message (create) or 500 (vote), both message-only
bodies. -/
theorem factResponse_keys (store : List Fact)
    (content nid fid t uid : String) (now : Int) (f : Fact)
    (hsome : getCurrent store = some f)
    (hc : content ≠ "")
    (hq : (patchVoteP2 store fid t uid).status = 200) :
    jsonKeys (getFactsIndex store).body = factJsonKeys ∧
    jsonKeys (getFactCurrentP3 store).body = factJsonKeys ∧
    jsonKeys (createFactP2 store content nid now).body = factJsonKeys ∧
    jsonKeys (patchVoteP2 store fid t uid).body = factJsonKeys ∧
    "voters" ∈ factJsonKeys ∧
    jsonKeys (createFactIndex store content nid now).body = ["message"] ∧
    (∀ (s2 : List Fact) (fid2 t2 uid2 : String),
      ¬ (patchVoteIndex s2 fid2 t2 uid2).status = 200 ∧
      jsonKeys (patchVoteIndex s2 fid2 t2 uid2).body = ["message"]) := by
  refine ⟨?_, ?_, ?_, ?_, by decide, ?_, ?_⟩
  · unfold getFactsIndex
    rw [hsome]
    rfl
  · unfold getFactCurrentP3
    rw [hsome]
    rfl
  · unfold createFactP2
    rw [if_neg hc]
    exact jsonKeys_factToJson _
  · obtain ⟨g, hg⟩ := patchVoteP2_200_body store fid t uid hq
    rw [hg]
    exact jsonKeys_factToJson g
  · unfold createFactIndex
    rw [if_neg hc]
    rfl
  · intro s2 fid2 t2 uid2
    exact patchVoteIndex_message_body s2 fid2 t2 uid2

/-- C5 witness: a concrete store, a successful part_002 vote, and the
index.js create body. -/
theorem factResponse_keys_witness :
    (getCurrent [freshFact "f1" "hello" 0] = some (freshFact "f1" "hello" 0)) ∧
    (("c" : String) ≠ "") ∧
    ((patchVoteP2 [freshFact "f1" "hello" 0] "f1" "agree" "u1").status = 200) ∧
    jsonKeys (patchVoteP2 [freshFact "f1" "hello" 0] "f1" "agree" "u1").body =
      factJsonKeys :=
  ⟨by decide, by decide, by decide,
   (factResponse_keys [freshFact "f1" "hello" 0] "c" "f2" "f1" "agree" "u1" 3
     (freshFact "f1" "hello" 0) (by decide) (by decide) (by decide)).2.2.2.1⟩

/-- C1 counterexample: one successful PATCH request through the
`src/unnamed/part_002` handler with vote type "other" (which the
handler does not validate) starting from a freshly created Fact yields
a persisted Fact with one voter entry but both counters zero — the
equation `agrees + disagrees == number of voters` fails after a
successful operation, and the voter mapping was mutated without a
counter change. -/
theorem voteInvariant_counterexample :
    (patchVoteP2 [freshFact "f1" "hello" 0] "f1" "other" "u1").status = 200 ∧
    (patchVoteP2 [freshFact "f1" "hello" 0] "f1" "other" "u1").store =
      [{ freshFact "f1" "hello" 0 with voters := [⟨"u1", "other"⟩] }] ∧
    ¬ factInv { freshFact "f1" "hello" 0 with voters := [⟨"u1", "other"⟩] } :=
  ⟨by decide, by decide, by decide⟩

/-- C1 (amended): starting from any store whose Facts satisfy
`agrees + disagrees == number of voters` (freshly created Facts do),
every Fact reachable by any sequence of PATCH vote requests still
satisfies the equation — unconditionally through the
`src/server/index.js` handler (its validation admits only agree and
disagree), and through the `src/unnamed/part_002` handler for requests
whose vote type is agree or disagree; for that handler the restriction
is necessary, since an unvalidated type string appends a voter entry
without changing either counter. -/
theorem voteInvariant_preserved (store : List Fact) (reqs : List VReq)
    (hinv : ∀ f ∈ store, factInv f) :
    (∀ f ∈ runVotesIndex store reqs, factInv f) ∧
    ((∀ r ∈ reqs, r.vtype = "agree" ∨ r.vtype = "disagree") →
      ∀ f ∈ runVotesP2 store reqs, factInv f) :=
  ⟨runVotesIndex_inv reqs store hinv,
   fun hv => runVotesP2_inv reqs store hinv hv⟩

/-- C1 witness: a fresh fact followed by a vote and a vote change. -/
theorem voteInvariant_preserved_witness :
    (∀ f ∈ [freshFact "f1" "hello" 0], factInv f) ∧
    (∀ f ∈ runVotesIndex [freshFact "f1" "hello" 0]
        [⟨"f1", "agree", "u1"⟩, ⟨"f1", "disagree", "u1"⟩], factInv f) :=
  ⟨by decide,
   (voteInvariant_preserved [freshFact "f1" "hello" 0]
     [⟨"f1", "agree", "u1"⟩, ⟨"f1", "disagree", "u1"⟩] (by decide)).1⟩

/-- C9: `connectWithRetry` (with `maxRetries` 5 in the first
`src/server/index.js` variant, 10 in the second — the statement is for
every `maxRetries`) makes at most `maxRetries` connection attempts for
every connector; between consecutive attempts it waits exactly
`min(1000 * 2 ^ k, 10000)` ms after the k-th failure (k = 1, 2, ...);
and when the (k+1)-th attempt is the first to succeed it returns early
after exactly k + 1 attempts with `isReady` set. -/
theorem connectWithRetry_spec (connect : Nat → Bool) (maxRetries k : Nat)
    (hk : k < maxRetries) (hsucc : connect k = true)
    (hbefore : ∀ j, j < k → connect j = false) :
    (∀ c : Nat → Bool, (connectWithRetry c maxRetries).attempts ≤ maxRetries) ∧
    (∀ c : Nat → Bool, (connectWithRetry c maxRetries).delays =
      (List.range ((connectWithRetry c maxRetries).attempts - 1)).map
        (fun j => min (1000 * 2 ^ (j + 1)) 10000)) ∧
    (connectWithRetry connect maxRetries).attempts = k + 1 ∧
    (connectWithRetry connect maxRetries).isReady = true := by
  refine ⟨?_, ?_, ?_, ?_⟩
  · intro c
    have h := connectAux_attempts_le c maxRetries maxRetries 0
    unfold connectWithRetry
    omega
  · intro c
    have h := connectAux_delays c maxRetries maxRetries 0 (by omega)
    unfold connectWithRetry
    rw [h]
    refine List.map_congr_left ?_
    intro j _
    unfold retryDelay
    exact congrArg (fun m => min (1000 * 2 ^ m) 10000) (by omega)
  · exact (connectAux_first_success connect maxRetries k hk hsucc maxRetries 0
      (by omega) (by omega) (fun j _ hj => hbefore j hj)).1
  · exact (connectAux_first_success connect maxRetries k hk hsucc maxRetries 0
      (by omega) (by omega) (fun j _ hj => hbefore j hj)).2

/-- C9 witness: a connector that first succeeds on its third attempt,
with the first variant maximum of 5: three attempts, ready, delays
2000 ms then 4000 ms. -/
theorem connectWithRetry_spec_witness :
    (2 < 5) ∧ ((fun n => decide (n = 2)) 2 = true) ∧
    (connectWithRetry (fun n => decide (n = 2)) 5).attempts = 2 + 1 ∧
    (connectWithRetry (fun n => decide (n = 2)) 5).isReady = true ∧
    (connectWithRetry (fun n => decide (n = 2)) 5).delays = [2000, 4000] :=
  ⟨by decide, by decide,
   (connectWithRetry_spec (fun n => decide (n = 2)) 5 2 (by decide) (by decide)
     (by decide)).2.2.1,
   (connectWithRetry_spec (fun n => decide (n = 2)) 5 2 (by decide) (by decide)
     (by decide)).2.2.2,
   by decide⟩

theorem decCounter_id (t : String) (f : Fact) :
    (decCounter t f).id = f.id := by
  unfold decCounter; split <;> rfl

theorem incCounterP2_id (t : String) (f : Fact) :
    (incCounterP2 t f).id = f.id := by
  unfold incCounterP2
  split
  · rfl
  · split <;> rfl

theorem setVoteFirst_cons_of_ne (uid t : String) (v : VoterEntry)
    (vs : List VoterEntry) (hv : ¬ v.userId = uid) :
    setVoteFirst uid t (v :: vs) = v :: setVoteFirst uid t vs := by
  simp only [setVoteFirst]
  rw [if_neg hv]

theorem setVoteFirst_append_of_absent (uid t : String) (ws : List VoterEntry) :
    ∀ vs : List VoterEntry, vs.find? (fun v => v.userId == uid) = none →
      setVoteFirst uid t (vs ++ ws) = vs ++ setVoteFirst uid t ws := by
  intro vs
  induction vs with
  | nil => intro _; rfl
  | cons v vs ih =>
      intro h
      by_cases hv : v.userId = uid
      · exfalso
        rw [List.find?_cons_of_pos _ (by simpa using hv)] at h
        exact Option.noConfusion h
      · rw [List.find?_cons_of_neg _ (by simpa using hv)] at h
        rw [List.cons_append, setVoteFirst_cons_of_ne uid t v (vs ++ ws) hv,
          ih h, List.cons_append]

/-- C2 counterexample: through the `src/server/index.js` handler,
submitting the same (fact, voter, choice) twice makes the second call
fail, but the rejection body is only `{message: 'Already voted'}` — it
does not carry the previously recorded choice, contrary to the claim
(the `previousVote` payload exists only in the `part_002` variant). -/
theorem duplicateVote_counterexample :
    (patchVoteIndex (patchVoteIndex [freshFact "f1" "hello" 0] "f1" "agree"
        "u1").store "f1" "agree" "u1").status = 400 ∧
    (jsonField (patchVoteIndex (patchVoteIndex [freshFact "f1" "hello" 0] "f1"
        "agree" "u1").store "f1" "agree" "u1").body "previousVote").isNone =
      true :=
  ⟨by decide, by decide⟩

/-- C2 (amended): for every fact and voter with no recorded vote,
submitting the same (factId, voterId, choice) twice makes the second
call fail with the duplicate-vote rejection (status 400) and leaves the
store — hence both counters — exactly as after the first call, in both
variants; the `src/unnamed/part_002` rejection carries the previously
recorded choice as `previousVote`, while the `src/server/index.js`
rejection carries no previous choice. -/
theorem duplicateVote_rejected (store : List Fact) (fid t uid : String)
    (fact : Fact)
    (hfind : store.find? (fun x => x.id == fid) = some fact)
    (habsent : fact.voters.find? (fun v => v.userId == uid) = none)
    (ht : t = "agree" ∨ t = "disagree") (huid : uid ≠ "") :
    (patchVoteIndex (patchVoteIndex store fid t uid).store fid t uid).status
      = 400 ∧
    (patchVoteIndex (patchVoteIndex store fid t uid).store fid t uid).store =
      (patchVoteIndex store fid t uid).store ∧
    jsonField (patchVoteIndex (patchVoteIndex store fid t uid).store fid t
      uid).body "previousVote" = none ∧
    (patchVoteP2 (patchVoteP2 store fid t uid).store fid t uid).status = 400 ∧
    (patchVoteP2 (patchVoteP2 store fid t uid).store fid t uid).store =
      (patchVoteP2 store fid t uid).store ∧
    jsonField (patchVoteP2 (patchVoteP2 store fid t uid).store fid t uid).body
      "previousVote" = some (.str t) := by
  have htne : ¬ t = "" := by rcases ht with rfl | rfl <;> simp
  have hcond1 : ¬ (t = "" ∨ uid = "") := by
    rintro (hh | hh)
    · exact htne hh
    · exact huid hh
  have hvalid : ¬ ¬ (t = "agree" ∨ t = "disagree") := not_not_intro ht
  have hvfind : (fact.voters ++ [(⟨uid, t⟩ : VoterEntry)]).find?
      (fun v => v.userId == uid) = some (⟨uid, t⟩ : VoterEntry) := by
    rw [find?_append_of_none _ _ _ habsent]
    exact List.find?_cons_of_pos _ (by simp)
  have step1 : patchVoteIndex store fid t uid =
      { status := 500,
        body := .obj [("message", .str "Internal server error")],
        store := saveFact store (incCounter t
          { fact with voters := fact.voters ++ [⟨uid, t⟩] }),
        dbRead := true } := by
    unfold patchVoteIndex
    rw [if_neg hcond1, if_neg hvalid, hfind]
    dsimp only
    rw [habsent]
  have hfind2 : (saveFact store (incCounter t
      { fact with voters := fact.voters ++ [⟨uid, t⟩] })).find?
        (fun x => x.id == fid) =
      some (incCounter t { fact with voters := fact.voters ++ [⟨uid, t⟩] }) :=
    find?_saveFact _ fact fid store hfind (incCounter_id t _)
  have step2 : patchVoteIndex (saveFact store (incCounter t
      { fact with voters := fact.voters ++ [⟨uid, t⟩] })) fid t uid =
      { status := 400, body := .obj [("message", .str "Already voted")],
        store := saveFact store (incCounter t
          { fact with voters := fact.voters ++ [⟨uid, t⟩] }),
        dbRead := true } := by
    unfold patchVoteIndex
    rw [if_neg hcond1, if_neg hvalid, hfind2]
    dsimp only
    rw [incCounter_voters]
    dsimp only
    rw [hvfind]
    dsimp only
    rw [if_pos rfl]
  have q1 : patchVoteP2 store fid t uid =
      { status := 200,
        body := factToJson { incCounterP2 t fact with
          voters := fact.voters ++ [⟨uid, t⟩] },
        store := saveFact store { incCounterP2 t fact with
          voters := fact.voters ++ [⟨uid, t⟩] },
        dbRead := true } := by
    unfold patchVoteP2
    rw [hfind]
    dsimp only
    rw [habsent]
  have hp2id : ({ incCounterP2 t fact with
      voters := fact.voters ++ [⟨uid, t⟩] } : Fact).id = fact.id :=
    incCounterP2_id t fact
  have qfind2 : (saveFact store { incCounterP2 t fact with
      voters := fact.voters ++ [⟨uid, t⟩] }).find? (fun x => x.id == fid) =
      some { incCounterP2 t fact with
        voters := fact.voters ++ [⟨uid, t⟩] } :=
    find?_saveFact _ fact fid store hfind hp2id
  have q2 : patchVoteP2 (saveFact store { incCounterP2 t fact with
      voters := fact.voters ++ [⟨uid, t⟩] }) fid t uid =
      { status := 400,
        body := .obj [("message", .str "You have already voted on this fact"),
                      ("hasVoted", .bool true), ("previousVote", .str t)],
        store := saveFact store { incCounterP2 t fact with
          voters := fact.voters ++ [⟨uid, t⟩] },
        dbRead := true } := by
    unfold patchVoteP2
    rw [qfind2]
    dsimp only
    rw [hvfind]
  rw [step1]
  dsimp only
  rw [step2, q1]
  dsimp only
  rw [q2]
  dsimp only
  refine ⟨rfl, rfl, ?_, rfl, rfl, ?_⟩
  · unfold jsonField
    dsimp only
    rw [List.find?_cons_of_neg _ (by decide)]
    rfl
  · unfold jsonField
    dsimp only
    rw [List.find?_cons_of_neg _ (by decide), List.find?_cons_of_neg _ (by decide),
      List.find?_cons_of_pos _ (by rfl)]
    rfl

/-- C2 witness: a concrete double submission of (f1, u1, agree). -/
theorem duplicateVote_rejected_witness :
    ([freshFact "f1" "hello" 0].find? (fun x => x.id == "f1") =
      some (freshFact "f1" "hello" 0)) ∧
    ((freshFact "f1" "hello" 0).voters.find? (fun v => v.userId == "u1") =
      none) ∧
    (patchVoteIndex (patchVoteIndex [freshFact "f1" "hello" 0] "f1" "agree"
      "u1").store "f1" "agree" "u1").status = 400 ∧
    (patchVoteP2 (patchVoteP2 [freshFact "f1" "hello" 0] "f1" "agree"
      "u1").store "f1" "agree" "u1").status = 400 :=
  ⟨by decide, by decide,
   (duplicateVote_rejected [freshFact "f1" "hello" 0] "f1" "agree" "u1"
     (freshFact "f1" "hello" 0) (by decide) (by decide) (by decide)
     (by decide)).1,
   (duplicateVote_rejected [freshFact "f1" "hello" 0] "f1" "agree" "u1"
     (freshFact "f1" "hello" 0) (by decide) (by decide) (by decide)
     (by decide)).2.2.2.1⟩

/-- C3: under policy variant A (the `src/server/index.js` handler),
voting agree and then disagree from the same voter on the same fact
leaves `agrees` at its value before the first call, increments
`disagrees` by exactly one, and records the voter's choice as
disagree. -/
theorem voteChange_variantA (store : List Fact) (fid uid : String)
    (fact : Fact)
    (hfind : store.find? (fun x => x.id == fid) = some fact)
    (habsent : fact.voters.find? (fun v => v.userId == uid) = none)
    (huid : uid ≠ "") :
    ∃ f', ((patchVoteIndex (patchVoteIndex store fid "agree" uid).store fid
        "disagree" uid).store).find? (fun x => x.id == fid) = some f' ∧
      f'.agrees = fact.agrees ∧
      f'.disagrees = fact.disagrees + 1 ∧
      f'.voters.find? (fun v => v.userId == uid) =
        some (⟨uid, "disagree"⟩ : VoterEntry) := by
  have hcondA : ¬ (("agree" : String) = "" ∨ uid = "") := by
    rintro (hh | hh)
    · exact absurd hh (by decide)
    · exact huid hh
  have hcondD : ¬ (("disagree" : String) = "" ∨ uid = "") := by
    rintro (hh | hh)
    · exact absurd hh (by decide)
    · exact huid hh
  have hvalidA : ¬ ¬ (("agree" : String) = "agree" ∨
      ("agree" : String) = "disagree") := not_not_intro (Or.inl rfl)
  have hvalidD : ¬ ¬ (("disagree" : String) = "agree" ∨
      ("disagree" : String) = "disagree") := not_not_intro (Or.inr rfl)
  have hvfindA : (fact.voters ++ [(⟨uid, "agree"⟩ : VoterEntry)]).find?
      (fun v => v.userId == uid) = some (⟨uid, "agree"⟩ : VoterEntry) := by
    rw [find?_append_of_none _ _ _ habsent]
    exact List.find?_cons_of_pos _ (by simp)
  have step1 : patchVoteIndex store fid "agree" uid =
      { status := 500,
        body := .obj [("message", .str "Internal server error")],
        store := saveFact store (incCounter "agree"
          { fact with voters := fact.voters ++ [(⟨uid, "agree"⟩ : VoterEntry)] }),
        dbRead := true } := by
    unfold patchVoteIndex
    rw [if_neg hcondA, if_neg hvalidA, hfind]
    dsimp only
    rw [habsent]
  have hfind2 : (saveFact store (incCounter "agree"
      { fact with voters := fact.voters ++ [(⟨uid, "agree"⟩ : VoterEntry)] })).find?
        (fun x => x.id == fid) =
      some (incCounter "agree"
        { fact with voters := fact.voters ++ [(⟨uid, "agree"⟩ : VoterEntry)] }) :=
    find?_saveFact _ fact fid store hfind (incCounter_id _ _)
  have step2 : patchVoteIndex (saveFact store (incCounter "agree"
      { fact with voters := fact.voters ++ [(⟨uid, "agree"⟩ : VoterEntry)] }))
        fid "disagree" uid =
      { status := 500,
        body := .obj [("message", .str "Internal server error")],
        store := saveFact (saveFact store (incCounter "agree"
            { fact with voters := fact.voters ++ [(⟨uid, "agree"⟩ : VoterEntry)] }))
          (incCounter "disagree"
            { decCounter "agree" (incCounter "agree"
                { fact with voters := fact.voters ++ [(⟨uid, "agree"⟩ : VoterEntry)] }) with
                voters := setVoteFirst uid "disagree"
                  (fact.voters ++ [(⟨uid, "agree"⟩ : VoterEntry)]) }),
        dbRead := true } := by
    unfold patchVoteIndex
    rw [if_neg hcondD, if_neg hvalidD, hfind2]
    dsimp only
    rw [incCounter_voters]
    dsimp only
    rw [hvfindA]
    dsimp only
    rw [if_neg (by decide : ¬ ("agree" : String) = "disagree")]
  refine ⟨incCounter "disagree"
      { decCounter "agree" (incCounter "agree"
          { fact with voters := fact.voters ++ [(⟨uid, "agree"⟩ : VoterEntry)] }) with
          voters := setVoteFirst uid "disagree"
            (fact.voters ++ [(⟨uid, "agree"⟩ : VoterEntry)]) }, ?_, ?_, ?_, ?_⟩
  · rw [step1]
    dsimp only
    rw [step2]
    dsimp only
    refine find?_saveFact _ (incCounter "agree"
      { fact with voters := fact.voters ++ [(⟨uid, "agree"⟩ : VoterEntry)] })
      fid _ hfind2 ?_
    simp only [incCounter_id, decCounter_id]
  · unfold incCounter decCounter
    rw [if_neg (by decide : ¬ ("disagree" : String) = "agree"),
      if_pos (rfl : ("agree" : String) = "agree"),
      if_pos (rfl : ("agree" : String) = "agree")]
    dsimp only
    omega
  · unfold incCounter decCounter
    rw [if_neg (by decide : ¬ ("disagree" : String) = "agree"),
      if_pos (rfl : ("agree" : String) = "agree"),
      if_pos (rfl : ("agree" : String) = "agree")]
  · rw [incCounter_voters]
    dsimp only
    rw [setVoteFirst_append_of_absent uid "disagree" _ fact.voters habsent]
    have hsingle : setVoteFirst uid "disagree" [(⟨uid, "agree"⟩ : VoterEntry)] =
        [(⟨uid, "disagree"⟩ : VoterEntry)] := by
      simp [setVoteFirst]
    rw [hsingle, find?_append_of_none _ _ _ habsent]
    exact List.find?_cons_of_pos _ (by simp)

/-- C3 witness: concrete agree-then-disagree from one voter on a fresh
fact. -/
theorem voteChange_variantA_witness :
    ([freshFact "f1" "hello" 0].find? (fun x => x.id == "f1") =
      some (freshFact "f1" "hello" 0)) ∧
    ((freshFact "f1" "hello" 0).voters.find? (fun v => v.userId == "u1") =
      none) ∧
    (∃ f', ((patchVoteIndex (patchVoteIndex [freshFact "f1" "hello" 0] "f1"
        "agree" "u1").store "f1" "disagree" "u1").store).find?
          (fun x => x.id == "f1") = some f' ∧
      f'.agrees = (freshFact "f1" "hello" 0).agrees ∧
      f'.disagrees = (freshFact "f1" "hello" 0).disagrees + 1 ∧
      f'.voters.find? (fun v => v.userId == "u1") =
        some (⟨"u1", "disagree"⟩ : VoterEntry)) :=
  ⟨by decide, by decide,
   voteChange_variantA [freshFact "f1" "hello" 0] "f1" "u1"
     (freshFact "f1" "hello" 0) (by decide) (by decide) (by decide)⟩

end OnlyFacts
